import Mathlib

/-!
Verification of the Senegal fishing-research pipeline core:
timestamp parsing, interval merging and effort aggregation
(`src/IMO_to_VesselID/IMO_TO_Vessel_id.py`), and the identity-resolution
cascade with its local cache (`src/scripts/IMO_TO_SSID.py`).

Timestamps are embedded as integers (microseconds since the civil epoch);
Python `datetime` values are totally ordered and subtracted, and the
embedding is an order-isomorphism on the values the two accepted formats
can produce.  Durations in hours, and the effort threshold comparison, are
over ℚ, modelling Python's float arithmetic exactly (the claims never
depend on double rounding).  Interval coverage is stated over ℚ-valued
instants so that covered time is the set of real instants, not just the
microsecond grid.
-/

namespace Senegal

/-- Python truthiness of an optional string: `None` and `""` are falsy.
Used wherever the source tests a string value with `if x:` / `if not x:`. -/
def truthy : Option String → Bool
  | none => false
  | some s => s ≠ ""

/-! ## Timestamp parsing (`parse_timestamp`, IMO_TO_Vessel_id.py lines 28-41)

`datetime.strptime` with the format strings `"%Y-%m-%dT%H:%M:%S.%fZ"` and
`"%Y-%m-%dT%H:%M:%SZ"`.  CPython compiles each directive to a regex:
`%Y` is exactly four digits, `%m`/`%d`/`%H`/`%M`/`%S` are one or two digits
constrained to their calendar range, `%f` is one to six digits (padded on
the right to microseconds), and literal characters match case-insensitively
(the pattern is compiled with `re.IGNORECASE`, so `t`/`z` are accepted for
`T`/`Z`).  The whole string must be consumed, and the resulting fields must
build a valid `datetime` (year ≥ 1, day within the month, leap years
honoured); `%S` nominally also matches 60/61 but `datetime` then raises
`ValueError`, which `parse_timestamp` catches, so the net behaviour equals
rejecting them at match time. -/

/-- Numeric value of a decimal digit character, `none` for non-digits. -/
def digitVal (c : Char) : Option Nat :=
  if c.isDigit then some (c.toNat - 48) else none

/-- A one-or-two-digit `strptime` field with value range `[lo, hi]`.
Two digits are taken when the second character is a digit; the regex's
one-digit fallback can never succeed in these formats because the character
after a one-digit reading would be a digit while every following literal is
not, so committing to two digits is faithful. -/
def parseField (lo hi : Nat) : List Char → Option (Nat × List Char)
  | [] => none
  | c1 :: rest =>
    match digitVal c1 with
    | none => none
    | some d1 =>
      match rest with
      | c2 :: rest2 =>
        match digitVal c2 with
        | some d2 =>
          let v := 10 * d1 + d2
          if lo ≤ v ∧ v ≤ hi then some (v, rest2) else none
        | none => if lo ≤ d1 ∧ d1 ≤ hi then some (d1, rest) else none
      | [] => if lo ≤ d1 ∧ d1 ≤ hi then some (d1, []) else none

/-- `%Y`: exactly four digits. -/
def parseYear : List Char → Option (Nat × List Char)
  | c1 :: c2 :: c3 :: c4 :: rest =>
    match digitVal c1, digitVal c2, digitVal c3, digitVal c4 with
    | some a, some b, some c, some d => some (((a * 10 + b) * 10 + c) * 10 + d, rest)
    | _, _, _, _ => none
  | _ => none

/-- A literal character of the format string; two acceptable spellings
because CPython compiles the pattern with `re.IGNORECASE`. -/
def litChar (a b : Char) : List Char → Option (List Char)
  | [] => none
  | c :: rest => if c = a ∨ c = b then some rest else none

/-- Split the leading run of digits off a character list. -/
def splitDigits : List Char → List Nat × List Char
  | [] => ([], [])
  | c :: rest =>
    match digitVal c with
    | some d => let p := splitDigits rest; (d :: p.1, p.2)
    | none => ([], c :: rest)

/-- `%f` semantics: the matched digits are right-padded to six, giving
microseconds. -/
def microsOf (ds : List Nat) : Nat :=
  (ds.foldl (fun a d => 10 * a + d) 0) * 10 ^ (6 - ds.length)

/-- `%f`: one to six digits. -/
def parseFrac (l : List Char) : Option (Nat × List Char) :=
  let p := splitDigits l
  if 1 ≤ p.1.length ∧ p.1.length ≤ 6 then some (microsOf p.1, p.2) else none

/-- Gregorian leap-year rule, as used by `datetime`. -/
def isLeap (y : Nat) : Bool := (y % 4 == 0 && y % 100 != 0) || y % 400 == 0

/-- Length of a month, as validated by the `datetime` constructor. -/
def daysInMonth (y m : Nat) : Nat :=
  if m = 2 then (if isLeap y then 29 else 28)
  else if m = 4 ∨ m = 6 ∨ m = 9 ∨ m = 11 then 30 else 31

/-- Day count of a proleptic-Gregorian civil date (days-from-civil
algorithm, shifted so all intermediate values are natural numbers for
years ≥ 1). -/
def daysFromCivil (y m d : Nat) : Nat :=
  let y1 := if m ≤ 2 then y - 1 else y
  let era := y1 / 400
  let yoe := y1 % 400
  let mp := (m + 9) % 12
  let doy := (153 * mp + 2) / 5 + (d - 1)
  let doe := yoe * 365 + yoe / 4 - yoe / 100 + doy
  era * 146097 + doe

/-- Microseconds since the epoch of `daysFromCivil`; order-isomorphic to
`datetime` comparison, and differences agree with
`timedelta.total_seconds()` up to the fixed 10^6 scale. -/
def toEpochMicros (y m d h mi s us : Nat) : ℤ :=
  ((daysFromCivil y m d * 86400 + h * 3600 + mi * 60 + s) * 1000000 + us : Nat)

/-- `datetime.strptime(ts, "%Y-%m-%dT%H:%M:%S.%fZ")`, with the
constructor's validity checks folded in; `none` models `ValueError`. -/
def strptimeMs (ts : String) : Option ℤ := do
  let l := ts.data
  let (y, l) ← parseYear l
  let l ← litChar '-' '-' l
  let (m, l) ← parseField 1 12 l
  let l ← litChar '-' '-' l
  let (d, l) ← parseField 1 31 l
  let l ← litChar 'T' 't' l
  let (h, l) ← parseField 0 23 l
  let l ← litChar ':' ':' l
  let (mi, l) ← parseField 0 59 l
  let l ← litChar ':' ':' l
  let (s, l) ← parseField 0 59 l
  let l ← litChar '.' '.' l
  let (us, l) ← parseFrac l
  let l ← litChar 'Z' 'z' l
  if l = [] ∧ 1 ≤ y ∧ d ≤ daysInMonth y m then some (toEpochMicros y m d h mi s us) else none

/-- `datetime.strptime(ts, "%Y-%m-%dT%H:%M:%SZ")`. -/
def strptimeNoMs (ts : String) : Option ℤ := do
  let l := ts.data
  let (y, l) ← parseYear l
  let l ← litChar '-' '-' l
  let (m, l) ← parseField 1 12 l
  let l ← litChar '-' '-' l
  let (d, l) ← parseField 1 31 l
  let l ← litChar 'T' 't' l
  let (h, l) ← parseField 0 23 l
  let l ← litChar ':' ':' l
  let (mi, l) ← parseField 0 59 l
  let l ← litChar ':' ':' l
  let (s, l) ← parseField 0 59 l
  let l ← litChar 'Z' 'z' l
  if l = [] ∧ 1 ≤ y ∧ d ≤ daysInMonth y m then some (toEpochMicros y m d h mi s 0) else none

/-- `parse_timestamp` (lines 28-41): try the sub-second format, fall back
to the plain one, and return `None` when both raise. -/
def parse_timestamp (ts : String) : Option ℤ :=
  match strptimeMs ts with
  | some v => some v
  | none => strptimeNoMs ts

/-! ## Interval merging (`merge_intervals`, lines 43-58)

`intervals.sort(key=lambda x: x[0])` is a stable sort by the first
component; any stable sort by that key produces the same list, and the
theorems below show the merged result does not depend on the tie order in
any case (permutation invariance).  The sort happens *in place*, so the
caller's list is left sorted; `merge_intervals_run` returns both the
function result and the post-call state of the argument list. -/

/-- An interval: parsed (start, end) timestamps, in epoch microseconds. -/
abbrev Interval := ℤ × ℤ

/-- The sort key order used by `intervals.sort(key=lambda x: x[0])`. -/
def leStart (a b : Interval) : Prop := a.1 ≤ b.1

instance : DecidableRel leStart := fun a b => inferInstanceAs (Decidable (a.1 ≤ b.1))

instance : IsTotal Interval leStart := ⟨fun a b => le_total a.1 b.1⟩

instance : IsTrans Interval leStart := ⟨fun _ _ _ h1 h2 => le_trans h1 h2⟩

/-- The in-place `intervals.sort(key=lambda x: x[0])`. -/
def sortIntervals (l : List Interval) : List Interval := l.insertionSort leStart

/-- The merging scan: `last` is `merged[-1]`, the open interval; a next
interval starting at or before `last`'s end extends it to the max of the
two ends, otherwise `last` is emitted and the next interval opens. -/
def mergeAux : Interval → List Interval → List Interval
  | last, [] => [last]
  | last, cur :: rest =>
    if cur.1 ≤ last.2 then mergeAux (last.1, max last.2 cur.2) rest
    else last :: mergeAux cur rest

/-- `merge_intervals`, with its effect on the argument: returns
`(result, state of the caller's list after the call)`.  The empty list
returns early before the in-place sort. -/
def merge_intervals_run (l : List Interval) : List Interval × List Interval :=
  if l = [] then ([], l)
  else
    let s := sortIntervals l
    ((match s with
      | [] => []
      | h :: t => mergeAux h t), s)

/-- The value returned by `merge_intervals`. -/
def merge_intervals (l : List Interval) : List Interval := (merge_intervals_run l).1

/-- `merge_intervals` on an already-materialised sorted list. -/
def mergeSorted : List Interval → List Interval
  | [] => []
  | h :: t => mergeAux h t

/-! ## Effort aggregation (`calculate_total_hours`, lines 60-76) -/

/-- A raw activity event: optional `start` / `end` timestamp strings. -/
structure Event where
  startTs : Option String
  endTs : Option String
deriving DecidableEq

/-- The interval `calculate_total_hours` builds from one event: both
timestamp strings must be present and non-empty (`if start_str and
end_str:`) and both must parse (`if start and end:`); otherwise the event
contributes nothing. -/
def eventInterval (e : Event) : Option Interval :=
  match e.startTs, e.endTs with
  | some s, some t =>
    if s ≠ "" ∧ t ≠ "" then
      match parse_timestamp s, parse_timestamp t with
      | some a, some b => some (a, b)
      | _, _ => none
    else none
  | _, _ => none

/-- Total merged duration in microseconds. -/
def totalMicros (events : List Event) : ℤ :=
  ((merge_intervals (events.filterMap eventInterval)).map fun p => p.2 - p.1).sum

/-- `calculate_total_hours`: merge the surviving intervals and sum their
durations in hours (`total_seconds() / 3600.0`; Python's float arithmetic
is modelled exactly, over ℚ). -/
def calculate_total_hours (events : List Event) : ℚ :=
  (totalMicros events : ℚ) / 3600000000

/-! ## Interval coverage and the canonical merged form -/

/-- `t` lies in the closed interval `p` (instants are ℚ-valued). -/
def memI (p : Interval) (t : ℚ) : Prop := (p.1 : ℚ) ≤ t ∧ t ≤ (p.2 : ℚ)

/-- `t` is covered by some interval of `l`. -/
def covers (l : List Interval) (t : ℚ) : Prop := ∃ p ∈ l, memI p t

/-- Strict gap between consecutive intervals: the next starts after the
previous ends. -/
def gapRel (p q : Interval) : Prop := p.2 < q.1

/-- Canonical merged form: well-formed intervals, consecutive ones
separated by a strict gap. -/
def Canon (l : List Interval) : Prop := (∀ p ∈ l, p.1 ≤ p.2) ∧ l.Chain' gapRel

theorem covers_nil {t : ℚ} : covers [] t ↔ False := by simp [covers]

theorem covers_cons {p : Interval} {l : List Interval} {t : ℚ} :
    covers (p :: l) t ↔ memI p t ∨ covers l t := by
  simp [covers]

theorem covers_perm {l l' : List Interval} (h : l.Perm l') (t : ℚ) :
    covers l t ↔ covers l' t := by
  constructor
  · rintro ⟨p, hp, hm⟩; exact ⟨p, h.subset hp, hm⟩
  · rintro ⟨p, hp, hm⟩; exact ⟨p, h.symm.subset hp, hm⟩

theorem mergeAux_shape : ∀ (l : List Interval) (a : Interval),
    ∃ e tl, mergeAux a l = (a.1, e) :: tl ∧ a.2 ≤ e
  | [], a => ⟨a.2, [], by simp [mergeAux], le_refl _⟩
  | cur :: rest, a => by
    by_cases h : cur.1 ≤ a.2
    · obtain ⟨e, tl, heq, hle⟩ := mergeAux_shape rest (a.1, max a.2 cur.2)
      exact ⟨e, tl, by simpa [mergeAux, h] using heq, le_trans (le_max_left _ _) hle⟩
    · exact ⟨a.2, mergeAux cur rest, by simp [mergeAux, h], le_refl _⟩

theorem memI_merge {a cur : Interval} (h : cur.1 ≤ a.2) (h2 : a.1 ≤ cur.1) (t : ℚ) :
    memI (a.1, max a.2 cur.2) t ↔ memI a t ∨ memI cur t := by
  have hq : ((max a.2 cur.2 : ℤ) : ℚ) = max (a.2 : ℚ) (cur.2 : ℚ) := by push_cast; rfl
  unfold memI
  dsimp only
  rw [hq]
  have hc1 : (cur.1 : ℚ) ≤ (a.2 : ℚ) := by exact_mod_cast h
  have hc2 : (a.1 : ℚ) ≤ (cur.1 : ℚ) := by exact_mod_cast h2
  constructor
  · rintro ⟨h3, h4⟩
    rcases le_max_iff.mp h4 with h5 | h5
    · exact Or.inl ⟨h3, h5⟩
    · by_cases h6 : t ≤ (a.2 : ℚ)
      · exact Or.inl ⟨h3, h6⟩
      · exact Or.inr ⟨by linarith, h5⟩
  · rintro (⟨h3, h4⟩ | ⟨h3, h4⟩)
    · exact ⟨h3, le_trans h4 (le_max_left _ _)⟩
    · exact ⟨le_trans hc2 h3, le_trans h4 (le_max_right _ _)⟩

theorem covers_mergeAux : ∀ (l : List Interval) (a : Interval),
    (∀ p ∈ l, a.1 ≤ p.1) → l.Pairwise leStart →
    ∀ x : ℚ, covers (mergeAux a l) x ↔ memI a x ∨ covers l x
  | [], a, _, _, x => by
    rw [mergeAux]
    simp [covers_cons, covers_nil]
  | cur :: rest, a, hord, hpw, x => by
    rw [mergeAux]
    by_cases h : cur.1 ≤ a.2
    · rw [if_pos h]
      have ha1c : a.1 ≤ cur.1 := hord cur (List.mem_cons_self _ _)
      have ih := covers_mergeAux rest (a.1, max a.2 cur.2)
        (fun p hp => hord p (List.mem_cons_of_mem _ hp)) (List.Pairwise.of_cons hpw) x
      rw [ih, memI_merge h ha1c, covers_cons]
      tauto
    · rw [if_neg h]
      have hpw' := List.pairwise_cons.mp hpw
      have ih := covers_mergeAux rest cur hpw'.1 hpw'.2 x
      rw [covers_cons, ih, covers_cons]
  termination_by l => l.length

theorem canon_mergeAux : ∀ (l : List Interval) (a : Interval),
    a.1 ≤ a.2 → (∀ p ∈ l, p.1 ≤ p.2) → (∀ p ∈ l, a.1 ≤ p.1) → l.Pairwise leStart →
    Canon (mergeAux a l)
  | [], a, ha, _, _, _ => by
    rw [mergeAux]
    refine ⟨?_, by simp⟩
    intro p hp
    simp only [List.mem_singleton] at hp
    subst hp
    exact ha
  | cur :: rest, a, ha, hwf, hord, hpw => by
    rw [mergeAux]
    by_cases h : cur.1 ≤ a.2
    · rw [if_pos h]
      exact canon_mergeAux rest (a.1, max a.2 cur.2)
        (le_trans ha (le_max_left _ _))
        (fun p hp => hwf p (List.mem_cons_of_mem _ hp))
        (fun p hp => hord p (List.mem_cons_of_mem _ hp))
        (List.Pairwise.of_cons hpw)
    · rw [if_neg h]
      have hpw' := List.pairwise_cons.mp hpw
      have hc := canon_mergeAux rest cur (hwf cur (List.mem_cons_self _ _))
        (fun p hp => hwf p (List.mem_cons_of_mem _ hp)) hpw'.1 hpw'.2
      obtain ⟨e, tl, heq, _⟩ := mergeAux_shape rest cur
      refine ⟨?_, ?_⟩
      · intro p hp
        rcases List.mem_cons.mp hp with rfl | hp'
        · exact ha
        · exact hc.1 p hp'
      · rw [List.chain'_cons']
        refine ⟨?_, hc.2⟩
        intro y hy
        rw [heq] at hy
        simp only [List.head?_cons, Option.mem_def, Option.some.injEq] at hy
        subst hy
        exact not_le.mp h
  termination_by l => l.length

theorem Canon.tail {p : Interval} {l : List Interval} (h : Canon (p :: l)) : Canon l :=
  ⟨fun q hq => h.1 q (List.mem_cons_of_mem _ hq), h.2.tail⟩

theorem canon_rel : ∀ {l : List Interval} {p : Interval}, Canon (p :: l) → ∀ q ∈ l, p.2 < q.1 := by
  intro l
  induction l with
  | nil => intro p _ q hq; simp at hq
  | cons r l' ih =>
    intro p hc q hq
    have hpr : p.2 < r.1 := (List.chain'_cons.mp hc.2).1
    rcases List.mem_cons.mp hq with rfl | hq'
    · exact hpr
    · have hr : r.1 ≤ r.2 := hc.1 r (by simp)
      have := ih hc.tail q hq'
      linarith

theorem canon_pairwise {l : List Interval} (h : Canon l) : l.Pairwise leStart := by
  induction l with
  | nil => exact List.Pairwise.nil
  | cons p l' ih =>
    refine List.pairwise_cons.mpr ⟨?_, ih h.tail⟩
    intro q hq
    have h1 : p.1 ≤ p.2 := h.1 p (by simp)
    have h2 := canon_rel h q hq
    show p.1 ≤ q.1
    linarith

theorem covers_head_le {p : Interval} {l : List Interval} (h : Canon (p :: l)) {t : ℚ}
    (hc : covers (p :: l) t) : (p.1 : ℚ) ≤ t := by
  obtain ⟨q, hq, hq1, _⟩ := hc
  rcases List.mem_cons.mp hq with rfl | hq'
  · exact hq1
  · have h1 : p.1 ≤ p.2 := h.1 p (by simp)
    have h2 := canon_rel h q hq'
    have h3 : (p.1 : ℚ) ≤ (q.1 : ℚ) := by exact_mod_cast le_trans h1 (le_of_lt h2)
    linarith

theorem covers_head_start {p : Interval} {l : List Interval} (h : Canon (p :: l)) :
    covers (p :: l) (p.1 : ℚ) :=
  ⟨p, by simp, le_refl _, by exact_mod_cast h.1 p (by simp)⟩

theorem canon_end_ge {p q : Interval} {t1 t2 : List Interval}
    (h1 : Canon (p :: t1)) (h2 : Canon (q :: t2))
    (hcov : ∀ t : ℚ, covers (p :: t1) t ↔ covers (q :: t2) t)
    (hs : p.1 = q.1) : q.2 ≤ p.2 := by
  by_contra hlt'
  have hlt : p.2 < q.2 := not_le.mp hlt'
  cases t1 with
  | nil =>
    have hq2 : covers (q :: t2) (q.2 : ℚ) :=
      ⟨q, by simp, by exact_mod_cast h2.1 q (by simp), le_refl _⟩
    obtain ⟨s, hs', _, hB⟩ := (hcov _).mpr hq2
    simp only [List.mem_singleton] at hs'
    subst hs'
    have : (q.2 : ℚ) ≤ (s.2 : ℚ) := hB
    have : q.2 ≤ s.2 := by exact_mod_cast this
    omega
  | cons r t1' =>
    have hgap : p.2 < r.1 := canon_rel h1 r (by simp)
    have hgapq : (p.2 : ℚ) < (r.1 : ℚ) := by exact_mod_cast hgap
    have hltq : (p.2 : ℚ) < (q.2 : ℚ) := by exact_mod_cast hlt
    set m : ℚ := min ((q.2 : ℚ)) (((p.2 : ℚ) + (r.1 : ℚ)) / 2) with hm
    have hm1 : (p.2 : ℚ) < m := lt_min hltq (by linarith)
    have hm2 : m < (r.1 : ℚ) := lt_of_le_of_lt (min_le_right _ _) (by linarith)
    have hcovm : covers (q :: t2) m := by
      refine ⟨q, by simp, ?_, min_le_left _ _⟩
      have hpp : (p.1 : ℚ) ≤ (p.2 : ℚ) := by exact_mod_cast h1.1 p (by simp)
      have hq1 : (q.1 : ℚ) = (p.1 : ℚ) := by exact_mod_cast hs.symm
      linarith
    obtain ⟨s, hsmem, hA, hB⟩ := (hcov m).mpr hcovm
    rcases List.mem_cons.mp hsmem with rfl | hs'
    · have : m ≤ (s.2 : ℚ) := hB
      linarith
    · have hr1 : r.1 ≤ s.1 := by
        rcases List.mem_cons.mp hs' with rfl | hs''
        · omega
        · have hr2 := canon_rel h1.tail s hs''
          have hr3 : r.1 ≤ r.2 := h1.tail.1 r (by simp)
          omega
      have : (r.1 : ℚ) ≤ (s.1 : ℚ) := by exact_mod_cast hr1
      linarith

theorem canon_cov_tail {p q : Interval} {t1 t2 : List Interval}
    (h1 : Canon (p :: t1))
    (hcov : ∀ t : ℚ, covers (p :: t1) t ↔ covers (q :: t2) t)
    (he : p.2 = q.2) : ∀ t : ℚ, covers t1 t → covers t2 t := by
  intro t hct
  obtain ⟨s, hsm, hA, hB⟩ := hct
  have hgt : (p.2 : ℚ) < t := by
    have hx := canon_rel h1 s hsm
    have : (p.2 : ℚ) < (s.1 : ℚ) := by exact_mod_cast hx
    linarith
  have hfull : covers (q :: t2) t := (hcov t).mp (covers_cons.mpr (Or.inr ⟨s, hsm, hA, hB⟩))
  rcases covers_cons.mp hfull with hmem | htail
  · exfalso
    have h4 : t ≤ (q.2 : ℚ) := hmem.2
    have h5 : (q.2 : ℚ) = (p.2 : ℚ) := by exact_mod_cast he.symm
    linarith
  · exact htail

theorem canon_unique : ∀ (l1 l2 : List Interval), Canon l1 → Canon l2 →
    (∀ t : ℚ, covers l1 t ↔ covers l2 t) → l1 = l2
  | [], [], _, _, _ => rfl
  | [], q :: t2, _, h2, hcov =>
    absurd ((hcov _).mpr (covers_head_start h2)) (by simp [covers_nil])
  | p :: t1, [], h1, _, hcov =>
    absurd ((hcov _).mp (covers_head_start h1)) (by simp [covers_nil])
  | p :: t1, q :: t2, h1, h2, hcov => by
    have hs : p.1 = q.1 := by
      have ha := covers_head_le h2 ((hcov _).mp (covers_head_start h1))
      have hb := covers_head_le h1 ((hcov _).mpr (covers_head_start h2))
      have : (p.1 : ℚ) = (q.1 : ℚ) := le_antisymm (by exact_mod_cast hb) ha
      exact_mod_cast this
    have he : p.2 = q.2 :=
      le_antisymm (canon_end_ge h2 h1 (fun t => (hcov t).symm) hs.symm)
        (canon_end_ge h1 h2 hcov hs)
    have hpq : p = q := Prod.ext hs he
    have hcovt : ∀ t : ℚ, covers t1 t ↔ covers t2 t := fun t =>
      ⟨canon_cov_tail h1 hcov he t,
       canon_cov_tail h2 (fun x => (hcov x).symm) he.symm t⟩
    have htl := canon_unique t1 t2 h1.tail h2.tail hcovt
    rw [hpq, htl]

theorem sortIntervals_perm (l : List Interval) : (sortIntervals l).Perm l :=
  List.perm_insertionSort _ _

theorem sortIntervals_sorted (l : List Interval) : List.Sorted leStart (sortIntervals l) :=
  List.sorted_insertionSort _ _

theorem merge_intervals_eq_mergeSorted (l : List Interval) :
    merge_intervals l = mergeSorted (sortIntervals l) := by
  by_cases h : l = []
  · subst h; rfl
  · simp only [merge_intervals, merge_intervals_run, if_neg h, mergeSorted]

theorem canon_merge (l : List Interval) (hwf : ∀ p ∈ l, p.1 ≤ p.2) :
    Canon (merge_intervals l) := by
  rw [merge_intervals_eq_mergeSorted]
  have hperm := sortIntervals_perm l
  have hsorted := sortIntervals_sorted l
  cases hse : sortIntervals l with
  | nil => exact ⟨by simp [mergeSorted], by simp [mergeSorted]⟩
  | cons h t =>
    rw [hse] at hsorted hperm
    have hwf' : ∀ p ∈ h :: t, p.1 ≤ p.2 := fun p hp => hwf p (hperm.subset hp)
    have hsc := List.sorted_cons.mp hsorted
    show Canon (mergeAux h t)
    exact canon_mergeAux t h (hwf' h (by simp)) (fun p hp => hwf' p (by simp [hp]))
      (fun p hp => hsc.1 p hp) hsc.2

theorem covers_merge (l : List Interval) (x : ℚ) :
    covers (merge_intervals l) x ↔ covers l x := by
  rw [merge_intervals_eq_mergeSorted]
  have hperm := sortIntervals_perm l
  have hsorted := sortIntervals_sorted l
  cases hse : sortIntervals l with
  | nil =>
    rw [hse] at hperm
    have : l = [] := (hperm.symm).eq_nil
    subst this
    simp [mergeSorted]
  | cons h t =>
    rw [hse] at hsorted hperm
    have hsc := List.sorted_cons.mp hsorted
    show covers (mergeAux h t) x ↔ _
    rw [covers_mergeAux t h (fun p hp => hsc.1 p hp) hsc.2 x, ← covers_cons]
    exact covers_perm hperm x

theorem merge_perm_invariant {l l' : List Interval} (hwf : ∀ p ∈ l, p.1 ≤ p.2)
    (h : l.Perm l') : merge_intervals l = merge_intervals l' := by
  have hwf' : ∀ p ∈ l', p.1 ≤ p.2 := fun p hp => hwf p (h.symm.subset hp)
  refine canon_unique _ _ (canon_merge l hwf) (canon_merge l' hwf') ?_
  intro x
  rw [covers_merge l x, covers_merge l' x]
  exact covers_perm h x

/-! ## Vessel details normalization (`get_vessel_details`, lines 78-124)

The response model: an `Option` field models an absent key (a key present
with JSON `null` behaves like an absent key in every read these functions
perform, so the two are conflated); `registryInfo` / `selfReportedInfo`
can be absent, a list of sub-records, or a single object.  On the single-
object shape an *empty* dict is falsy and skips the block in Python, but
skipping and reading `None` from every key produce the same result, so
the embedding always takes the branch. -/

/-- One sub-record of `registryInfo` / `selfReportedInfo`. -/
structure SubRecord where
  id : Option String := none
  ssvid : Option String := none
  shipname : Option String := none
  imo : Option String := none
  callsign : Option String := none
  flag : Option String := none
deriving DecidableEq

/-- Shape of `registryInfo` / `selfReportedInfo`. -/
inductive InfoVal where
  | absent
  | list (l : List SubRecord)
  | dict (d : SubRecord)
deriving DecidableEq

/-- One element of the response's `entries` array. -/
structure VesselBlob where
  id : Option String := none
  ssvid : Option String := none
  shipname : Option String := none
  imo : Option String := none
  callsign : Option String := none
  flag : Option String := none
  registryInfo : InfoVal := .absent
  selfReportedInfo : InfoVal := .absent
deriving DecidableEq

/-- A dict-shaped registry response body. -/
structure ApiData where
  entries : List VesselBlob
deriving DecidableEq

/-- The dict returned by `get_vessel_details`. -/
structure VdResult where
  imo : String
  vessel_id : Option String
  name : String
  flag : Option String
deriving DecidableEq

/-- `get_vessel_details` (lines 78-124), with the already-fetched response
as an argument (`none` models a raised fetch error, a falsy body, or a
missing/empty `entries` array, each of which makes the source return
`None`).  Field priority as coded: `flag` and `vessel_id` are read from
the first registry sub-record, a self-reported value only fills a falsy
one; `name` is read from the first self-reported sub-record only,
defaulting to `"Unknown"`; a still-falsy `vessel_id` finally falls back
to the top-level `id`. -/
def get_vessel_details (imo : String) (resp : Option ApiData) : Option VdResult :=
  match resp with
  | none => none
  | some data =>
    match data.entries with
    | [] => none
    | vessel :: _ =>
      let rp : Option String × Option String :=
        match vessel.registryInfo with
        | .list (ri :: _) => (ri.flag, ri.id)
        | .list [] => (none, none)
        | .dict dd => (dd.flag, dd.id)
        | .absent => (none, none)
      let sp : Option String × String × Option String :=
        match vessel.selfReportedInfo with
        | .list (si :: _) =>
          ((if truthy rp.2 then rp.2 else si.id), si.shipname.getD "Unknown",
            (if truthy rp.1 then rp.1 else si.flag))
        | .list [] => (rp.2, "Unknown", rp.1)
        | .dict dd =>
          ((if truthy rp.2 then rp.2 else dd.id), dd.shipname.getD "Unknown",
            (if truthy rp.1 then rp.1 else dd.flag))
        | .absent => (rp.2, "Unknown", rp.1)
      let vid := if ¬ truthy sp.1 ∧ truthy vessel.id then vessel.id else sp.1
      some ⟨imo, vid, sp.2.1, sp.2.2⟩

/-! ## Classification (`process_vessel`, lines 156-197) -/

/-- A row of the analysis report built by `process_vessel`. -/
structure ProcRow where
  imo : String
  vesselName : Option String
  vesselId : Option String
  flag : Option String
  totalHours : Option ℚ
  classification : String

/-- `process_vessel` (lines 156-197), parameterised by its two external
collaborators: `getDetails` is the composition of the metadata fetch with
`get_vessel_details`, and `fetchEvents` is `fetch_fishing_events`
(arguments: vessel id, start date, end date).  The second component
counts the calls made to the events source. -/
def process_vessel (getDetails : String → Option VdResult)
    (fetchEvents : String → String → String → List Event)
    (imo start_date end_date : String) (threshold : ℚ) : ProcRow × Nat :=
  match getDetails imo with
  | none => (⟨imo, none, none, none, none, "No metadata"⟩, 0)
  | some details =>
    if details.flag ≠ some "SEN" then
      (⟨imo, some details.name, details.vessel_id, details.flag, none,
        "Suspect (Non-Senegalese flag)"⟩, 0)
    else if ¬ truthy details.vessel_id then
      (⟨imo, some details.name, none, details.flag, none, "No vessel_id"⟩, 0)
    else
      let events := fetchEvents (details.vessel_id.getD "") start_date end_date
      let total := calculate_total_hours events
      (⟨imo, some details.name, details.vessel_id, details.flag, some total,
        if total < threshold then "Suspect (Low fishing effort)" else "Genuine"⟩, 1)

/-! ## Identity resolution cascade (`IMO_TO_SSID.py`) -/

/-- Per-SSVID details collected by `extract_ssvids_from_response`
(string fields default to `""` via `info.get(k, "")`). -/
structure VDetails where
  shipname : String
  imo : String
  callsign : String
  flag : String
deriving DecidableEq

/-- `list(set(xs))`.  CPython's set iteration order is unspecified; the
embedding uses `List.dedup`, and no theorem below depends on the order
chosen when several distinct candidates coexist. -/
def pyUniq (xs : List String) : List String := xs.dedup

/-- The details dicts, keyed by ssvid; later writes overwrite. -/
def DetailsMap : Type := String → Option VDetails

def emptyMap : DetailsMap := fun _ => none

/-- Dict assignment `m[k] = v`. -/
def dput (m : DetailsMap) (k : String) (v : VDetails) : DetailsMap :=
  fun x => if x = k then some v else m x

/-- The 4-field details dict stored for a sub-record. -/
def subDetails (i : SubRecord) : VDetails :=
  ⟨i.shipname.getD "", i.imo.getD "", i.callsign.getD "", i.flag.getD ""⟩

/-- The 4-field details dict stored for the top-level vessel object. -/
def blobDetails (v : VesselBlob) : VDetails :=
  ⟨v.shipname.getD "", v.imo.getD "", v.callsign.getD "", v.flag.getD ""⟩

/-- Iterating an info field as `extract_ssvids_from_response` does.  A
list iterates its sub-records; an absent key iterates nothing (the
`.get(..., [])` default).  A dict iterates its *keys*: the only key whose
name contains `"ssvid"` as a substring is `ssvid` itself, and reaching it
raises `TypeError` (indexing a string with a string), modelled as
`.error`; without an `ssvid` key the loop matches nothing. -/
def iterInfo : InfoVal → Except Unit (List SubRecord)
  | .absent => .ok []
  | .list l => .ok l
  | .dict d => if d.ssvid.isSome then .error () else .ok []

/-- Accumulators of the extraction loop, in source order:
`(ssvids, vessel_ids, vessel_details)`. -/
structure ExtractAcc where
  ssvids : List String
  vesselIds : List String
  details : DetailsMap

/-- The scan over one info array: a sub-record with a present, truthy
`ssvid` appends it and overwrites its details entry. -/
def scanInfos (l : List SubRecord) (ss : List String) (ds : DetailsMap) :
    List String × DetailsMap :=
  l.foldl (fun a i =>
    match i.ssvid with
    | some s => if s ≠ "" then (a.1 ++ [s], dput a.2 s (subDetails i)) else a
    | none => a) (ss, ds)

/-- The body of the `for vessel in entries:` loop. -/
def scanBlob (acc : ExtractAcc) (v : VesselBlob) : Except Unit ExtractAcc := do
  let vids := match v.id with
    | some s => if s ≠ "" then acc.vesselIds ++ [s] else acc.vesselIds
    | none => acc.vesselIds
  let sr ← iterInfo v.selfReportedInfo
  let p1 := scanInfos sr acc.ssvids acc.details
  let ri ← iterInfo v.registryInfo
  let p2 := scanInfos ri p1.1 p1.2
  let p3 := match v.ssvid with
    | some s => if s ≠ "" then (p2.1 ++ [s], dput p2.2 s (blobDetails v)) else p2
    | none => p2
  pure ⟨p3.1, vids, p3.2⟩

/-- `extract_ssvids_from_response` (lines 45-104).  `none` input models a
falsy or non-dict body; the source returns `(None, None, {})` for those
and for an empty `entries`, which its callers observe exactly as they do
empty lists, so both are embedded as `([], [], {})`.  `.error` models an
uncaught `TypeError` escaping to the caller's `except` block. -/
def extract_ssvids_from_response (data : Option ApiData) :
    Except Unit (List String × List String × DetailsMap) :=
  match data with
  | none => .ok ([], [], emptyMap)
  | some d =>
    match d.entries with
    | [] => .ok ([], [], emptyMap)
    | entries => do
      let acc ← entries.foldlM scanBlob ⟨[], [], emptyMap⟩
      pure (pyUniq acc.ssvids, pyUniq acc.vesselIds, acc.details)

/-- The distinct registry requests the three search functions can make,
capturing the query or where-clause each builds. -/
inductive Query where
  | combined (imo name : String)
  | advImo (imo : String)
  | advName (name : String)
  | advLike (name : String)
  | basicImo (imo : String)
  | basicName (name : String)
deriving DecidableEq

/-- Outcome of one `requests.get`: `fail` is a raised exception or a
non-200 status; `ok` carries the parsed JSON body. -/
inductive HttpResult where
  | fail
  | ok (data : Option ApiData)

/-- The external registry, as a function from request to outcome. -/
def Registry : Type := Query → HttpResult

/-- What one guarded search block leaves in the accumulators:
all-or-nothing, since every update sits under `if found_ssvids:`. -/
structure StageOut where
  ssvids : List String
  vesselIds : List String
  details : DetailsMap
  source : Option String

def emptyStage : StageOut := ⟨[], [], emptyMap, none⟩

/-- One `try: requests.get(...)` block of `search_vessel_basic` /
`search_vessel_advanced`: on a 200 response whose extraction yields a
non-empty ssvid list, the accumulators take that stage's values and
`source` its name; an exception anywhere in the block is caught and
leaves them untouched. -/
def runStage (q : Query) (srcName : String) (reg : Registry) : StageOut :=
  match reg q with
  | .fail => emptyStage
  | .ok data =>
    match extract_ssvids_from_response data with
    | .error _ => emptyStage
    | .ok (ss, vs, ds) => if ss ≠ [] then ⟨ss, vs, ds, some srcName⟩ else emptyStage

/-- The scalar tuple a search function returns:
`(ssvids[0] if ssvids else None, vessel_ids[0] if vessel_ids else None,
source, vessel_details)`. -/
structure SearchHit where
  ssvid : Option String
  vesselId : Option String
  source : Option String
  details : DetailsMap

def StageOut.hit (o : StageOut) : SearchHit :=
  ⟨o.ssvids.head?, o.vesselIds.head?, o.source, o.details⟩

/-- `search_vessel_basic` (lines 106-178), also returning the ordered
list of registry calls made. -/
def search_vessel_basic (imo name : String) (reg : Registry) : SearchHit × List Query :=
  let s1 := if imo ≠ "" then (runStage (.basicImo imo) "GFW-IMO-basic" reg, [Query.basicImo imo])
            else (emptyStage, [])
  let s2 := if s1.1.ssvids = [] ∧ name ≠ "" then
              (runStage (.basicName name) "GFW-name-basic" reg, [Query.basicName name])
            else (emptyStage, [])
  let o := if s1.1.ssvids ≠ [] then s1.1 else s2.1
  (o.hit, s1.2 ++ s2.2)

/-- `search_vessel_advanced` (lines 180-281): exact-IMO, then exact-name,
then partial-name, each attempted only while the accumulated ssvid list
is still empty. -/
def search_vessel_advanced (imo name : String) (reg : Registry) : SearchHit × List Query :=
  let s1 := if imo ≠ "" then (runStage (.advImo imo) "GFW-IMO-advanced" reg, [Query.advImo imo])
            else (emptyStage, [])
  let s2 := if s1.1.ssvids = [] ∧ name ≠ "" then
              (runStage (.advName name) "GFW-name-advanced" reg, [Query.advName name])
            else (emptyStage, [])
  let o12 := if s1.1.ssvids ≠ [] then s1.1 else s2.1
  let s3 := if o12.ssvids = [] ∧ name ≠ "" then
              (runStage (.advLike name) "GFW-name-partial" reg, [Query.advLike name])
            else (emptyStage, [])
  let o := if o12.ssvids ≠ [] then o12 else s3.1
  (o.hit, s1.2 ++ s2.2 ++ s3.2)

/-- `search_vessel_combined` (lines 283-316): requires both inputs
truthy; a non-empty ssvid list paired with an *empty* vessel-id list hits
the unguarded `vessel_ids[0]`, raising `IndexError`, which the enclosing
`except` catches, so the call reports no match. -/
def search_vessel_combined (imo name : String) (reg : Registry) : SearchHit × List Query :=
  if imo ≠ "" ∧ name ≠ "" then
    let res : SearchHit :=
      match reg (.combined imo name) with
      | .fail => emptyStage.hit
      | .ok data =>
        match extract_ssvids_from_response data with
        | .error _ => emptyStage.hit
        | .ok (ss, vs, ds) =>
          match ss, vs with
          | s0 :: _, v0 :: _ => ⟨some s0, some v0, some "GFW-combined", ds⟩
          | _, _ => emptyStage.hit
    (res, [Query.combined imo name])
  else (emptyStage.hit, [])

/-- One entry of the persistent local vessel database.  `none` models an
absent key (a key present with JSON `null` reads the same in every access
the source performs). -/
structure DbEntry where
  name : Option String := none
  ssvid : Option String := none
  vessel_id : Option String := none
  source : Option String := none
  details : Option VDetails := none
deriving DecidableEq

/-- The local database, keyed by IMO. -/
def LocalDb : Type := String → Option DbEntry

/-- The per-row resolution step of `process_vessel_list` (lines 337-357):
the local database is consulted first; the searches run — combined, then
advanced, then basic — each attempted only while no truthy ssvid has been
found.  The second component is the ordered list of registry calls
made. -/
def resolve_vessel (db : LocalDb) (imo name : String) (reg : Registry) :
    SearchHit × List Query :=
  let cached : SearchHit :=
    match db imo with
    | some e =>
      match e.ssvid with
      | some s => ⟨some s, e.vessel_id, some "local-db", emptyMap⟩
      | none => ⟨none, none, none, emptyMap⟩
    | none => ⟨none, none, none, emptyMap⟩
  if truthy cached.ssvid then (cached, [])
  else
    let r1 := search_vessel_combined imo name reg
    if truthy r1.1.ssvid then r1
    else
      let r2 := search_vessel_advanced imo name reg
      if truthy r2.1.ssvid then (r2.1, r1.2 ++ r2.2)
      else
        let r3 := search_vessel_basic imo name reg
        (r3.1, r1.2 ++ r2.2 ++ r3.2)

/-- The local-database write performed after a successful resolution
(lines 359-369): field-by-field assignment into the existing entry (an
empty dict is created first when the key is new); the `details` key is
written only when the resolution's details map holds a value for the
found ssvid, so a pre-existing value survives otherwise. -/
def db_update (old : Option DbEntry) (vessel_name ssvid : String)
    (vessel_id source : Option String) (details : DetailsMap) : DbEntry :=
  let e := old.getD {}
  let e1 : DbEntry := { e with
    name := some vessel_name
    ssvid := some ssvid
    vessel_id := vessel_id
    source := source }
  match details ssvid with
  | some d => { e1 with details := some d }
  | none => e1

/-! ## Concrete fixtures used by the witnesses below -/

/-- A response blob whose self-reported array carries one ssvid. -/
def mockBlobW : VesselBlob :=
  { selfReportedInfo := .list [{ ssvid := some "123456789", shipname := some "TEST VESSEL", flag := some "SEN" }] }

/-- A registry mock: the combined where-clause returns an empty entries
array (structural no-match), the advanced exact-IMO stage returns one
vessel. -/
def regW : Registry := fun q =>
  match q with
  | .advImo _ => .ok (some ⟨[mockBlobW]⟩)
  | _ => .ok (some ⟨[]⟩)

/-- An empty local database. -/
def dbMissW : LocalDb := fun _ => none

/-- A local database holding a resolved entry for `"1234567"`. -/
def dbHitW : LocalDb := fun i =>
  if i = "1234567" then some { ssvid := some "999", vessel_id := some "vid9" } else none

/-- Metadata mock for the worked end-to-end scenario: flag `"SEN"`,
resolved vessel id `"abc123"`. -/
def gdW : String → Option VdResult := fun _ =>
  some ⟨"9999999", some "abc123", "TEST VESSEL", some "SEN"⟩

/-- Events mock for the worked scenario: 10:00-12:00, 11:30-13:00,
14:00-15:00 on one day, merging to 4.0 hours. -/
def fW : String → String → String → List Event := fun _ _ _ =>
  [⟨some "2023-12-18T10:00:00Z", some "2023-12-18T12:00:00Z"⟩,
   ⟨some "2023-12-18T11:30:00Z", some "2023-12-18T13:00:00Z"⟩,
   ⟨some "2023-12-18T14:00:00Z", some "2023-12-18T15:00:00Z"⟩]

/-- Events mock whose only events are dropped (missing / unparseable
timestamps). -/
def fDropW : String → String → String → List Event := fun _ _ _ =>
  [⟨none, some "2023-12-18T10:00:00Z"⟩, ⟨some "not-a-date", some "2023-12-18T12:00:00Z"⟩]

/-- Registry sub-record carrying a shipname, for the normalization
counterexample. -/
def regSubW : SubRecord := { shipname := some "REGNAME", flag := some "FRA", id := some "rid" }

/-- Self-reported sub-record carrying a different shipname. -/
def selfSubW : SubRecord := { shipname := some "SELFNAME", id := some "sid", flag := some "ESP" }

/-- Response in which both arrays are non-empty and both carry a name. -/
def c4dataW : ApiData := ⟨[{ registryInfo := .list [regSubW], selfReportedInfo := .list [selfSubW] }]⟩

/-! ## Claim theorems -/

/-- C2: for every input list of well-formed intervals, `merge_intervals`
returns a sequence sorted by start, pairwise disjoint (each interval
starts strictly after the previous one ends), whose union of covered
instants equals that of the input, and the result is the same for every
permutation of the input list. -/
theorem merge_intervals_spec (l : List Interval) (hwf : ∀ p ∈ l, p.1 ≤ p.2) :
    (merge_intervals l).Pairwise leStart ∧
    (merge_intervals l).Chain' gapRel ∧
    (∀ x : ℚ, covers (merge_intervals l) x ↔ covers l x) ∧
    (∀ l' : List Interval, l.Perm l' → merge_intervals l = merge_intervals l') :=
  ⟨canon_pairwise (canon_merge l hwf), (canon_merge l hwf).2, covers_merge l,
   fun _ h => merge_perm_invariant hwf h⟩

/-- C2 witness: the spec instantiated on a concrete three-interval list
and one of its permutations. -/
theorem merge_intervals_spec_witness :
    (∀ x : ℚ, covers (merge_intervals [((2:ℤ),(5:ℤ)), (0,3), (7,8)]) x ↔
      covers [((2:ℤ),(5:ℤ)), (0,3), (7,8)] x) ∧
    merge_intervals [((2:ℤ),(5:ℤ)), (0,3), (7,8)] =
      merge_intervals [((0:ℤ),(3:ℤ)), (7,8), (2,5)] := by
  have h := merge_intervals_spec [((2:ℤ),(5:ℤ)), (0,3), (7,8)] (by decide)
  exact ⟨h.2.2.1, h.2.2.2 _ (by decide)⟩

/-- C9 counterexample: `merge_intervals` sorts its argument list in
place, so after the call the caller's list does *not* hold the intervals
in their original order. -/
theorem claim9_counterexample :
    (merge_intervals_run [((2:ℤ),(3:ℤ)), (0,1)]).2 ≠ [((2:ℤ),(3:ℤ)), (0,1)] := by
  decide

/-- C9 amended: `merge_intervals` leaves the caller's list holding the
same multiset of intervals, but reordered in place (sorted by start); the
returned value is unaffected by this. -/
theorem merge_run_state (l : List Interval) :
    (merge_intervals_run l).2.Perm l ∧
    List.Sorted leStart (merge_intervals_run l).2 ∧
    (merge_intervals_run l).1 = merge_intervals l := by
  by_cases h : l = []
  · subst h
    exact ⟨List.Perm.nil, List.sorted_nil, rfl⟩
  · have h2 : (merge_intervals_run l).2 = sortIntervals l := by
      simp [merge_intervals_run, h]
    rw [h2]
    exact ⟨sortIntervals_perm l, sortIntervals_sorted l, rfl⟩

/-- C8 counterexample: the local-database write is not an unconditional
wholesale overwrite — with identical new values, the resulting entry
differs depending on the pre-existing entry, whose stale `details` value
survives the update. -/
theorem claim8_counterexample :
    (db_update (some { name := some "OLD", ssvid := some "", source := some "GFW-combined", details := some ⟨"A","B","C","D"⟩ })
      "NEW" "555" none (some "GFW-IMO-basic") emptyMap).details = some ⟨"A","B","C","D"⟩ ∧
    (db_update none "NEW" "555" none (some "GFW-IMO-basic") emptyMap).details = none := by
  exact ⟨by decide, by decide⟩

/-- C8 amended: the write updates the entry field by field: `name`,
`ssvid`, `vessel_id` and `source` always take the new values, while
`details` is overwritten only when the new resolution carries details for
the found ssvid and otherwise retains the pre-existing value. -/
theorem db_update_fields (old : Option DbEntry) (n s : String)
    (vid src : Option String) (dets : DetailsMap) :
    (db_update old n s vid src dets).name = some n ∧
    (db_update old n s vid src dets).ssvid = some s ∧
    (db_update old n s vid src dets).vessel_id = vid ∧
    (db_update old n s vid src dets).source = src ∧
    (db_update old n s vid src dets).details =
      (match dets s with
       | some d => some d
       | none => (old.getD {}).details) := by
  unfold db_update
  cases dets s <;> simp

/-- C1 counterexample: a record with a null resolved id but a non-`"SEN"`
flag is classified `Suspect (Non-Senegalese flag)` — the flag comparison
runs *before* the null-identity check, so the claim's "never labeled
Suspect-Flag" fails. -/
theorem claim1_counterexample :
    (process_vessel (fun _ => some ⟨"9111111", none, "V", some "ESP"⟩) (fun _ _ _ => [])
      "9111111" "2015-01-01" "2025-12-31" 3).1.classification =
      "Suspect (Non-Senegalese flag)" ∧
    "Suspect (Non-Senegalese flag)" ≠ "No vessel_id" := by
  exact ⟨by decide, by decide⟩

/-- C1 amended: for a record with a falsy resolved id, total hours stay
null and the events source is never called, but the label depends on the
flag check, which runs first: a non-matching flag yields
`Suspect (Non-Senegalese flag)`; only a matching flag yields the
no-identity label `No vessel_id`. -/
theorem classify_null_id (g : String → Option VdResult)
    (f : String → String → String → List Event) (imo sd ed : String) (th : ℚ)
    (d : VdResult) (hg : g imo = some d) (hv : truthy d.vessel_id = false) :
    (process_vessel g f imo sd ed th).1.totalHours = none ∧
    (process_vessel g f imo sd ed th).2 = 0 ∧
    (process_vessel g f imo sd ed th).1.classification =
      (if d.flag ≠ some "SEN" then "Suspect (Non-Senegalese flag)" else "No vessel_id") := by
  by_cases hf : d.flag = some "SEN"
  · simp [process_vessel, hg, hf, hv]
  · simp [process_vessel, hg, hf, hv]

/-- C1 witness: the amended claim instantiated with a matching flag and a
missing vessel id. -/
theorem classify_null_id_witness :
    (process_vessel (fun _ => some ⟨"9111112", none, "V", some "SEN"⟩) (fun _ _ _ => [])
      "9111112" "2015-01-01" "2025-12-31" 3).1.totalHours = none ∧
    (process_vessel (fun _ => some ⟨"9111112", none, "V", some "SEN"⟩) (fun _ _ _ => [])
      "9111112" "2015-01-01" "2025-12-31" 3).2 = 0 ∧
    (process_vessel (fun _ => some ⟨"9111112", none, "V", some "SEN"⟩) (fun _ _ _ => [])
      "9111112" "2015-01-01" "2025-12-31" 3).1.classification = "No vessel_id" := by
  have h := classify_null_id (fun _ => some ⟨"9111112", none, "V", some "SEN"⟩)
    (fun _ _ _ => []) "9111112" "2015-01-01" "2025-12-31" 3
    ⟨"9111112", none, "V", some "SEN"⟩ rfl (by decide)
  refine ⟨h.1, h.2.1, ?_⟩
  rw [h.2.2]
  decide

/-- C5: a record with a resolved id whose flag differs from the `"SEN"`
jurisdiction filter is labeled `Suspect (Non-Senegalese flag)` with null
total hours, and the events source is never called. -/
theorem classify_flag_mismatch (g : String → Option VdResult)
    (f : String → String → String → List Event) (imo sd ed : String) (th : ℚ)
    (d : VdResult) (v : String)
    (hg : g imo = some d) (_hv : d.vessel_id = some v) (hf : d.flag ≠ some "SEN") :
    (process_vessel g f imo sd ed th).1.classification = "Suspect (Non-Senegalese flag)" ∧
    (process_vessel g f imo sd ed th).1.totalHours = none ∧
    (process_vessel g f imo sd ed th).2 = 0 := by
  simp [process_vessel, hg, hf]

/-- C5 witness: the flag-mismatch scenario of the spec (`"ESP"` flag),
with a resolved vessel id present. -/
theorem classify_flag_mismatch_witness :
    (process_vessel (fun _ => some ⟨"9999999", some "abc123", "TEST VESSEL", some "ESP"⟩) fW
      "9999999" "2015-01-01" "2025-12-31" 3).1.classification =
      "Suspect (Non-Senegalese flag)" ∧
    (process_vessel (fun _ => some ⟨"9999999", some "abc123", "TEST VESSEL", some "ESP"⟩) fW
      "9999999" "2015-01-01" "2025-12-31" 3).1.totalHours = none ∧
    (process_vessel (fun _ => some ⟨"9999999", some "abc123", "TEST VESSEL", some "ESP"⟩) fW
      "9999999" "2015-01-01" "2025-12-31" 3).2 = 0 :=
  classify_flag_mismatch _ fW "9999999" "2015-01-01" "2025-12-31" 3
    ⟨"9999999", some "abc123", "TEST VESSEL", some "ESP"⟩ "abc123" rfl rfl (by decide)

/-- C6: with a resolved id and matching flag, total hours are the merged
duration of the events whose endpoints both parse (microseconds summed
over the disjoint merged set, divided by 3.6·10⁹, i.e. seconds / 3600),
and the label is `Suspect (Low fishing effort)` exactly when the total is
strictly below the threshold — equality yields `Genuine`. -/
theorem classify_effort (g : String → Option VdResult)
    (f : String → String → String → List Event) (imo sd ed : String) (th : ℚ)
    (d : VdResult) (v : String)
    (hg : g imo = some d) (hv : d.vessel_id = some v) (hv2 : v ≠ "")
    (hf : d.flag = some "SEN") :
    (process_vessel g f imo sd ed th).1.totalHours =
      some (calculate_total_hours (f v sd ed)) ∧
    (process_vessel g f imo sd ed th).2 = 1 ∧
    (process_vessel g f imo sd ed th).1.classification =
      (if calculate_total_hours (f v sd ed) < th then "Suspect (Low fishing effort)"
       else "Genuine") ∧
    (calculate_total_hours (f v sd ed) = th →
      (process_vessel g f imo sd ed th).1.classification = "Genuine") ∧
    calculate_total_hours (f v sd ed) =
      (((((merge_intervals ((f v sd ed).filterMap eventInterval)).map
        fun p => p.2 - p.1).sum : ℤ) : ℚ)) / 3600000000 := by
  have htv : truthy (some v) = true := decide_eq_true hv2
  have hmain : process_vessel g f imo sd ed th =
      (⟨imo, some d.name, d.vessel_id, d.flag, some (calculate_total_hours (f v sd ed)),
        if calculate_total_hours (f v sd ed) < th then "Suspect (Low fishing effort)"
        else "Genuine"⟩, 1) := by
    simp [process_vessel, hg, hf, hv, htv]
  rw [hmain]
  refine ⟨rfl, rfl, rfl, ?_, rfl⟩
  intro heq
  simp [heq]

/-- C6 witness: the worked scenario — three events merging to 4.0 hours
against threshold 3.0 yield `Genuine`. -/
theorem classify_effort_witness :
    (process_vessel gdW fW "9999999" "2015-01-01" "2025-12-31" 3).1.classification =
      "Genuine" ∧
    (process_vessel gdW fW "9999999" "2015-01-01" "2025-12-31" 3).1.totalHours = some 4 := by
  have h := classify_effort gdW fW "9999999" "2015-01-01" "2025-12-31" 3
    ⟨"9999999", some "abc123", "TEST VESSEL", some "SEN"⟩ "abc123" rfl rfl (by decide) rfl
  have h4 : calculate_total_hours (fW "abc123" "2015-01-01" "2025-12-31") = 4 := by
    unfold calculate_total_hours
    rw [show totalMicros (fW "abc123" "2015-01-01" "2025-12-31") = 14400000000 from by decide]
    norm_num
  refine ⟨?_, ?_⟩
  · rw [h.2.2.1, h4]
    norm_num
  · rw [h.1, h4]

/-- C10: with a resolved id and matching flag, an event list that is
empty or consists only of dropped events yields total hours exactly 0 (a
number, not null), hence `Suspect (Low fishing effort)` for every
positive threshold. -/
theorem classify_all_dropped (g : String → Option VdResult)
    (f : String → String → String → List Event) (imo sd ed : String) (th : ℚ)
    (d : VdResult) (v : String)
    (hg : g imo = some d) (hv : d.vessel_id = some v) (hv2 : v ≠ "")
    (hf : d.flag = some "SEN")
    (hdrop : ∀ e ∈ f v sd ed, eventInterval e = none) (hth : 0 < th) :
    (process_vessel g f imo sd ed th).1.totalHours = some 0 ∧
    (process_vessel g f imo sd ed th).1.classification = "Suspect (Low fishing effort)" := by
  have hzero : calculate_total_hours (f v sd ed) = 0 := by
    unfold calculate_total_hours totalMicros
    rw [List.filterMap_eq_nil_iff.mpr hdrop]
    norm_num [merge_intervals, merge_intervals_run]
  have htv : truthy (some v) = true := decide_eq_true hv2
  have hmain : process_vessel g f imo sd ed th =
      (⟨imo, some d.name, d.vessel_id, d.flag, some (calculate_total_hours (f v sd ed)),
        if calculate_total_hours (f v sd ed) < th then "Suspect (Low fishing effort)"
        else "Genuine"⟩, 1) := by
    simp [process_vessel, hg, hf, hv, htv]
  rw [hmain, hzero]
  exact ⟨rfl, by simp [hth]⟩

/-- C10 witness: two events, one missing its start and one with an
unparseable start, give total hours 0 and the low-effort label. -/
theorem classify_all_dropped_witness :
    (process_vessel gdW fDropW "9999999" "2015-01-01" "2025-12-31" 1).1.totalHours =
      some 0 ∧
    (process_vessel gdW fDropW "9999999" "2015-01-01" "2025-12-31" 1).1.classification =
      "Suspect (Low fishing effort)" :=
  classify_all_dropped gdW fDropW "9999999" "2015-01-01" "2025-12-31" 1
    ⟨"9999999", some "abc123", "TEST VESSEL", some "SEN"⟩ "abc123" rfl rfl (by decide) rfl
    (by decide) (by norm_num)

/-- C7: both textual formats parse (to the same instant), a malformed
string parses in neither; any accepted string was accepted by one of the
two `strptime` formats; and an event with a missing or unparseable
endpoint is dropped silently — aggregation over the remaining events is
unchanged and no fault propagates (the embedding is total). -/
theorem timestamp_parsing_spec :
    (parse_timestamp "2023-12-18T04:07:13.000Z" = some 63864907633000000) ∧
    (parse_timestamp "2023-12-18T04:07:13Z" = some 63864907633000000) ∧
    (parse_timestamp "not-a-date" = none) ∧
    (∀ ts v, parse_timestamp ts = some v →
      strptimeMs ts = some v ∨ strptimeNoMs ts = some v) ∧
    (∀ (e : Event) (evs : List Event), e.startTs = none ∨ e.endTs = none →
      calculate_total_hours (e :: evs) = calculate_total_hours evs) ∧
    (∀ (s t : String) (evs : List Event),
      parse_timestamp s = none ∨ parse_timestamp t = none →
      calculate_total_hours (⟨some s, some t⟩ :: evs) = calculate_total_hours evs) := by
  refine ⟨by decide, by decide, by decide, ?_, ?_, ?_⟩
  · intro ts v h
    unfold parse_timestamp at h
    cases hm : strptimeMs ts with
    | some w =>
      rw [hm] at h
      simp only [Option.some.injEq] at h
      exact Or.inl (congrArg some h)
    | none =>
      rw [hm] at h
      exact Or.inr h
  · intro e evs h
    have he : eventInterval e = none := by
      obtain ⟨st, et⟩ := e
      rcases h with h | h
      · simp only at h
        subst h
        cases et <;> rfl
      · simp only at h
        subst h
        cases st <;> rfl
    simp [calculate_total_hours, totalMicros, List.filterMap_cons, he]
  · intro s t evs h
    have he : eventInterval ⟨some s, some t⟩ = none := by
      rcases h with h | h
      · cases hpt : parse_timestamp t <;> simp [eventInterval, h, hpt]
      · cases hps : parse_timestamp s <;> simp [eventInterval, hps, h]
    simp [calculate_total_hours, totalMicros, List.filterMap_cons, he]

/-- C7 witness: an event with an unparseable start timestamp contributes
nothing to the aggregation. -/
theorem timestamp_parsing_spec_witness :
    calculate_total_hours [⟨some "not-a-date", some "2023-12-18T04:07:13Z"⟩] =
      calculate_total_hours [] :=
  timestamp_parsing_spec.2.2.2.2.2 "not-a-date" "2023-12-18T04:07:13Z" []
    (Or.inl (by decide))

/-- C4 counterexample: the registry sub-record carries a name
(`"REGNAME"`), yet the normalized record's display name is the
self-reported `"SELFNAME"` — the registry-over-self-reported priority
does not hold for the display-name field. -/
theorem claim4_counterexample :
    get_vessel_details "X" (some c4dataW) =
      some ⟨"X", some "rid", "SELFNAME", some "FRA"⟩ ∧
    regSubW.shipname = some "REGNAME" ∧
    "SELFNAME" ≠ "REGNAME" := by
  exact ⟨by decide, by decide, by decide⟩

/-- C4 amended: with both sub-record arrays non-empty, the first
candidate of each is used; `flag` prefers the registry value and falls
back to self-reported only when the registry one is falsy; the resolved
id does the same and finally falls back to the top-level `id`; but the
display name is taken from the first *self-reported* sub-record only
(default `"Unknown"`), ignoring any registry-side name. -/
theorem vessel_details_priority (imo : String) (data : ApiData) (v : VesselBlob)
    (vrest : List VesselBlob) (r : SubRecord) (rtl : List SubRecord)
    (s : SubRecord) (stl : List SubRecord)
    (h1 : data.entries = v :: vrest) (h2 : v.registryInfo = .list (r :: rtl))
    (h3 : v.selfReportedInfo = .list (s :: stl)) :
    get_vessel_details imo (some data) = some ⟨imo,
      (if ¬ truthy (if truthy r.id then r.id else s.id) ∧ truthy v.id then v.id
       else (if truthy r.id then r.id else s.id)),
      s.shipname.getD "Unknown",
      (if truthy r.flag then r.flag else s.flag)⟩ := by
  simp [get_vessel_details, h1, h2, h3]

/-- C4 witness: the amended priority instantiated on the two-name
response. -/
theorem vessel_details_priority_witness :
    get_vessel_details "X" (some c4dataW) =
      some ⟨"X", some "rid", "SELFNAME", some "FRA"⟩ := by
  have h := vessel_details_priority "X" c4dataW
    { registryInfo := .list [regSubW], selfReportedInfo := .list [selfSubW] } []
    regSubW [] selfSubW [] rfl rfl rfl
  rw [h]
  decide

theorem truthy_none : truthy none = false := rfl

theorem runStage_found_source (q : Query) (n : String) (reg : Registry)
    (h : (runStage q n reg).ssvids ≠ []) : (runStage q n reg).source = some n := by
  unfold runStage at h ⊢
  cases hr : reg q with
  | fail => rw [hr] at h; simp [emptyStage] at h
  | ok data =>
    rw [hr] at h
    dsimp only at h ⊢
    cases hx : extract_ssvids_from_response data with
    | error e => rw [hx] at h; simp [emptyStage] at h
    | ok trip =>
      obtain ⟨ss, vs, ds⟩ := trip
      rw [hx] at h
      dsimp only at h ⊢
      by_cases hss : ss = []
      · simp [hss, emptyStage] at h
      · simp [hss]

theorem hit_ssvid_truthy {o : StageOut} (h : truthy o.hit.ssvid = true) :
    o.ssvids ≠ [] := by
  intro hnil
  simp only [StageOut.hit] at h
  rw [hnil] at h
  simp [truthy] at h

theorem advanced_source (imo name : String) (reg : Registry)
    (h : truthy (search_vessel_advanced imo name reg).1.ssvid = true) :
    (search_vessel_advanced imo name reg).1.source = some "GFW-IMO-advanced" ∨
    (search_vessel_advanced imo name reg).1.source = some "GFW-name-advanced" ∨
    (search_vessel_advanced imo name reg).1.source = some "GFW-name-partial" := by
  unfold search_vessel_advanced at h ⊢
  dsimp only at h ⊢
  split_ifs at h ⊢ <;>
    first
      | exact Or.inl (runStage_found_source _ _ _ (hit_ssvid_truthy h))
      | exact Or.inr (Or.inl (runStage_found_source _ _ _ (hit_ssvid_truthy h)))
      | exact Or.inr (Or.inr (runStage_found_source _ _ _ (hit_ssvid_truthy h)))
      | simp [emptyStage, StageOut.hit, truthy] at h

/-- C3: the cascade consults the local cache first — a cached entry with
a truthy ssvid short-circuits with zero registry calls and source
`local-db`; on a cache miss the stages run combined, then advanced, then
basic, each only while the previous found nothing, the call log
concatenating in that order; and when the advanced stage is the one that
succeeds, the recorded source is one of the advanced-stage names. -/
theorem resolver_cascade_spec :
    (∀ (db : LocalDb) (imo name : String) (reg : Registry) (e : DbEntry) (s : String),
      db imo = some e → e.ssvid = some s → s ≠ "" →
      (resolve_vessel db imo name reg).1.ssvid = some s ∧
      (resolve_vessel db imo name reg).1.source = some "local-db" ∧
      (resolve_vessel db imo name reg).2 = []) ∧
    (∀ (db : LocalDb) (imo name : String) (reg : Registry),
      db imo = none →
      truthy (search_vessel_combined imo name reg).1.ssvid = false →
      truthy (search_vessel_advanced imo name reg).1.ssvid = true →
      (resolve_vessel db imo name reg).1 = (search_vessel_advanced imo name reg).1 ∧
      (resolve_vessel db imo name reg).2 =
        (search_vessel_combined imo name reg).2 ++ (search_vessel_advanced imo name reg).2) ∧
    (∀ (db : LocalDb) (imo name : String) (reg : Registry),
      db imo = none →
      truthy (search_vessel_combined imo name reg).1.ssvid = true →
      (resolve_vessel db imo name reg).1 = (search_vessel_combined imo name reg).1 ∧
      (resolve_vessel db imo name reg).2 = (search_vessel_combined imo name reg).2) ∧
    (∀ (db : LocalDb) (imo name : String) (reg : Registry),
      db imo = none →
      truthy (search_vessel_combined imo name reg).1.ssvid = false →
      truthy (search_vessel_advanced imo name reg).1.ssvid = false →
      (resolve_vessel db imo name reg).1 = (search_vessel_basic imo name reg).1 ∧
      (resolve_vessel db imo name reg).2 =
        (search_vessel_combined imo name reg).2 ++ (search_vessel_advanced imo name reg).2 ++
          (search_vessel_basic imo name reg).2) ∧
    (∀ (imo name : String) (reg : Registry),
      truthy (search_vessel_advanced imo name reg).1.ssvid = true →
      (search_vessel_advanced imo name reg).1.source = some "GFW-IMO-advanced" ∨
      (search_vessel_advanced imo name reg).1.source = some "GFW-name-advanced" ∨
      (search_vessel_advanced imo name reg).1.source = some "GFW-name-partial") := by
  refine ⟨?_, ?_, ?_, ?_, fun imo name reg h => advanced_source imo name reg h⟩
  · intro db imo name reg e s hdb hss hs
    have htv : truthy (some s) = true := decide_eq_true hs
    simp [resolve_vessel, hdb, hss, htv]
  · intro db imo name reg hdb hc ha
    simp [resolve_vessel, hdb, hc, ha, truthy_none]
  · intro db imo name reg hdb hc
    simp [resolve_vessel, hdb, hc, truthy_none]
  · intro db imo name reg hdb hc ha
    simp [resolve_vessel, hdb, hc, ha, truthy_none]

/-- C3 witness: a cache hit makes zero registry calls; on a cache miss
with an empty combined response and an advanced exact-IMO match, the
source records the advanced stage and the log shows combined then
advanced. -/
theorem resolver_cascade_spec_witness :
    (resolve_vessel dbHitW "1234567" "TEST" regW).2 = [] ∧
    (resolve_vessel dbHitW "1234567" "TEST" regW).1.source = some "local-db" ∧
    (resolve_vessel dbMissW "1234567" "TEST" regW).1.source = some "GFW-IMO-advanced" ∧
    (resolve_vessel dbMissW "1234567" "TEST" regW).2 =
      [Query.combined "1234567" "TEST", Query.advImo "1234567"] := by
  have ha := resolver_cascade_spec.1 dbHitW "1234567" "TEST" regW
    { ssvid := some "999", vessel_id := some "vid9" } "999" rfl rfl (by decide)
  have hb := resolver_cascade_spec.2.1 dbMissW "1234567" "TEST" regW rfl (by decide) (by decide)
  refine ⟨ha.2.2, ha.2.1, ?_, ?_⟩
  · rw [hb.1]
    decide
  · rw [hb.2]
    decide
